import Mathlib

/-!
Verification development for the WinPick script metadata and execution
subsystem.  The definitions below are a shallow embedding of
`src/utils/script_metadata.py` (`get_exe_metadata`, `parse_script_metadata`)
and `src/utils/script_runner.py` (`run_script`, `run_script_as_admin`).

File I/O, the win32 version-resource API and the `ShellExecuteW` elevation
call are modelled by explicit oracle parameters (`Except`/inductive
outcomes); Python exceptions are modelled with `Except`, `try`/`except`
blocks as a `match` on the body's result.  Strings are processed as
`List Char`.
-/

namespace WinPick

/-- Path separator characters recognised by `ntpath` (`os.path` on Windows):
both slash and backslash. Drive-letter handling is elided: paths in scope
are plain file paths. -/
def isSep (c : Char) : Bool := c = '/' || c = '\\'

/-- `os.path.basename`: the part of the path after the last separator. -/
def basenameList (p : List Char) : List Char :=
  (p.reverse.takeWhile (fun c => !isSep c)).reverse

/-- Index of the last occurrence of `c` in `l`, if any (Python `str.rfind`). -/
def lastIdx (c : Char) : List Char → Option Nat
  | [] => none
  | x :: xs =>
    match lastIdx c xs with
    | some i => some (i + 1)
    | none => if x = c then some 0 else none

/-- `os.path.splitext` restricted to a basename `b` (the genericpath
algorithm: split at the last dot, unless every character before that dot
is itself a dot, i.e. the dot only begins a hidden-file name). -/
def splitextBase (b : List Char) : List Char × List Char :=
  match lastIdx '.' b with
  | none => (b, [])
  | some d => if (b.take d).any (fun c => c != '.') then (b.take d, b.drop d) else (b, [])

/-- Extension of a path, `os.path.splitext(p)[1]`: last-dot suffix of the
basename (the dot must come after the last separator, which restricting to
the basename enforces). -/
def extOfList (p : List Char) : List Char := (splitextBase (basenameList p)).2

/-- ASCII lower-casing of one character (`str.lower` on the ASCII range,
which is all that extensions and the UNDOABLE keyword set use). -/
def toLowerChar (c : Char) : Char :=
  if 'A' ≤ c ∧ c ≤ 'Z' then Char.ofNat (c.toNat + 32) else c

def lowerList (l : List Char) : List Char := l.map toLowerChar

/-- Python `str` whitespace on the ASCII range (`str.strip` default set). -/
def isPyWs (c : Char) : Bool :=
  c = ' ' || c = '\t' || c = '\n' || c = '\r' || c = '\x0b' || c = '\x0c'

/-- `str.strip()`: drop whitespace from both ends. -/
def stripList (l : List Char) : List Char :=
  ((l.dropWhile isPyWs).reverse.dropWhile isPyWs).reverse

/-- The `[ \t]` character class of the metadata regexes. -/
def isTabSpace (c : Char) : Bool := c = ' ' || c = '\t'

/-- The `[\r\n]` character class terminating a metadata value. -/
def isCRLF (c : Char) : Bool := c = '\r' || c = '\n'

/-- Case-insensitive literal-prefix matcher: strips `pat` (compared
case-insensitively, as under the regex `(?i)` flag) from the front of `l`. -/
def stripPrefixCI : List Char → List Char → Option (List Char)
  | [], l => some l
  | _ :: _, [] => none
  | k :: ks, c :: cs => if toLowerChar c = toLowerChar k then stripPrefixCI ks cs else none

/-- One anchored attempt of the field regex
`(?i)<marker>[ \t]*<kw>[ \t]*(.*?)[\r\n]` at the head of `l`:
marker, then greedy tabs/spaces, then the keyword (ending in `:`),
then greedy tabs/spaces, then the lazily-matched group, which runs to the
first CR/LF; the match fails when no CR/LF follows on the same line. -/
def matchFieldAt (marker kw l : List Char) : Option (List Char) :=
  match stripPrefixCI marker l with
  | none => none
  | some r1 =>
    match stripPrefixCI kw (r1.dropWhile isTabSpace) with
    | none => none
    | some r3 =>
      let r4 := r3.dropWhile isTabSpace
      match r4.dropWhile (fun c => !isCRLF c) with
      | [] => none
      | _ :: _ => some (r4.takeWhile (fun c => !isCRLF c))

/-- `re.search` of the field regex over the scanned content: the leftmost
position at which `matchFieldAt` succeeds, returning the captured group. -/
def searchField (marker kw : List Char) : List Char → Option (List Char)
  | [] => none
  | c :: cs =>
    match matchFieldAt marker kw (c :: cs) with
    | some g => some g
    | none => searchField marker kw cs

/-- One field extraction of `parse_script_metadata`: the stripped captured
group when the regex matches, the field's default otherwise. -/
def getField (marker kw content : List Char) (dflt : String) : String :=
  match searchField marker kw content with
  | some g => String.mk (stripList g)
  | none => dflt

/-- The six-string tuple returned by the metadata parser
(`friendly_name, description, undoable, undo_desc, developer, link`);
`undoable` is the literal `"Yes"`/`"No"` string the source returns. -/
structure ScriptMetadata where
  friendly_name : String
  description : String
  undoable : String
  undo_desc : String
  developer : String
  link : String
deriving DecidableEq, Repr

/-- Outcome of the win32 version-resource lookup inside `get_exe_metadata`:
`importError` — `import win32api` fails; `lookupError` — a version call
raises before any field is read (inner bare `except`); `midError d` — the
FileDescription lookup returned `d` but a later call raised; `ok d n` —
both lookups completed, `""` standing for a falsy (absent) value;
`outerError e` — the outer `except Exception` fires with message `e`. -/
inductive ExeOracle where
  | importError
  | lookupError
  | midError (descInfo : String)
  | ok (descInfo nameInfo : String)
  | outerError (e : String)
deriving DecidableEq, Repr

def basename (p : String) : String := String.mk (basenameList p.data)

def extOf (p : String) : String := String.mk (extOfList p.data)

def strLower (s : String) : String := String.mk (lowerList s.data)

/-- Root (extension stripped) of a basename, `os.path.splitext(b)[0]`. -/
def splitextRoot (b : String) : String := String.mk (splitextBase b.data).1

/-- `get_exe_metadata` of `script_metadata.py`: name defaults to the
basename (or its stem when win32api is unavailable), description to
`"Executable file"` (or `"Windows Executable"` without win32api); a
successful version-resource lookup overrides them when truthy; the
remaining fields are constant. -/
def get_exe_metadata (exe_path : String) (oracle : ExeOracle) : ScriptMetadata :=
  match oracle with
  | .outerError e =>
    ⟨basename exe_path, "Error reading metadata: " ++ e, "No", "", "", ""⟩
  | .importError =>
    ⟨splitextRoot (basename exe_path), "Windows Executable", "No", "", "", ""⟩
  | .lookupError =>
    ⟨basename exe_path, "Executable file", "No", "", "", ""⟩
  | .midError descInfo =>
    ⟨basename exe_path, if descInfo ≠ "" then descInfo else "Executable file", "No", "", "", ""⟩
  | .ok descInfo nameInfo =>
    ⟨if nameInfo ≠ "" then nameInfo else basename exe_path,
     if descInfo ≠ "" then descInfo else "Executable file", "No", "", "", ""⟩

/-- The six keyword literals of the metadata regexes. -/
def kwNAME : List Char := "NAME:".data
def kwDESCRIPTION : List Char := "DESCRIPTION:".data
def kwUNDOABLE : List Char := "UNDOABLE:".data
def kwUNDODESC : List Char := "UNDO_DESC:".data
def kwDEVELOPER : List Char := "DEVELOPER:".data
def kwLINK : List Char := "LINK:".data

/-- `parse_script_metadata` of `script_metadata.py`.  `fileRead` models
`open(script_path).read(2000)`'s fallible source: `.error e` is an I/O
error with text `e`, `.ok f` the file's full text (the parser itself
truncates to the first 2000 characters).  `.exe` paths are routed to
`get_exe_metadata` before any read; the final `except` branch turns a read
error into the all-defaults record with the error text in `description`. -/
def parse_script_metadata (script_path : String) (fileRead : Except String String)
    (oracle : ExeOracle) : ScriptMetadata :=
  let default_name := basename script_path
  let ext := strLower (extOf script_path)
  if ext = ".exe" then get_exe_metadata script_path oracle
  else
    match fileRead with
    | .error e =>
      ⟨default_name, "Error reading metadata: " ++ e, "No", "", "", ""⟩
    | .ok file =>
      let content := file.data.take 2000
      let marker := if ext = ".bat" ∨ ext = ".cmd" then "::".data else "#".data
      let friendly_name := getField marker kwNAME content default_name
      let description := getField marker kwDESCRIPTION content ""
      let undoable :=
        match searchField marker kwUNDOABLE content with
        | some g =>
          if lowerList (stripList g) ∈ ["yes".data, "true".data, "1".data]
          then "Yes" else "No"
        | none => "No"
      let undo_desc := getField marker kwUNDODESC content ""
      let developer := getField marker kwDEVELOPER content ""
      let link := getField marker kwLINK content ""
      ⟨friendly_name, description, undoable, undo_desc, developer, link⟩

example :
    parse_script_metadata "foo.bat" (.ok ":: NAME: Foo\nrest") .lookupError =
      ⟨"Foo", "", "No", "", "", ""⟩ := by decide

example :
    parse_script_metadata "foo.bat" (.ok "# NAME: Foo\nrest") .lookupError =
      ⟨"foo.bat", "", "No", "", "", ""⟩ := by decide

example :
    parse_script_metadata "foo.py" (.ok "# NAME: Foo\n# UNDOABLE: TRUE\n") .lookupError =
      ⟨"Foo", "", "Yes", "", "", ""⟩ := by decide

example :
    parse_script_metadata "foo.py" (.error "denied") .lookupError =
      ⟨"foo.py", "Error reading metadata: denied", "No", "", "", ""⟩ := by decide

example : extOf "C:\\a\\b.tar.exe" = ".exe" := by decide

example : splitextRoot "b.tar.exe" = "b.tar" := by decide

/-- Scanned content contains no recognized metadata marker: each of the six
field regexes fails over it. -/
def noMarkers (marker content : List Char) : Prop :=
  searchField marker kwNAME content = none ∧
  searchField marker kwDESCRIPTION content = none ∧
  searchField marker kwUNDOABLE content = none ∧
  searchField marker kwUNDODESC content = none ∧
  searchField marker kwDEVELOPER content = none ∧
  searchField marker kwLINK content = none

instance (marker content : List Char) : Decidable (noMarkers marker content) := by
  unfold noMarkers
  infer_instance

instance instDecEqExcept {ε α : Type} [DecidableEq ε] [DecidableEq α] :
    DecidableEq (Except ε α) := fun a b =>
  match a, b with
  | .ok x, .ok y =>
    if h : x = y then isTrue (h ▸ rfl) else isFalse (fun hh => h (Except.ok.inj hh))
  | .ok _, .error _ => isFalse (fun hh => Except.noConfusion hh)
  | .error _, .ok _ => isFalse (fun hh => Except.noConfusion hh)
  | .error e, .error f =>
    if h : e = f then isTrue (h ▸ rfl) else isFalse (fun hh => h (Except.error.inj hh))

/-- The observable shape of a `subprocess.Popen` call built by `run_script`:
the argument vector and the `shell=` flag (both calls also merge stderr into
stdout and suppress the console window, which is constant and not modelled). -/
structure LaunchSpec where
  cmd : List String
  shell : Bool
deriving DecidableEq, Repr

/-- `run_script` of `script_runner.py`.  `pyExe` is `sys.executable`.
`.ok` carries the spawned process's invocation; `.error` is a raised
`ValueError` (no process is created).  The `.bat`/`.cmd` branch returns its
own `Popen` with `shell=True`; all other successful branches share the
final `Popen` with `shell` unset. -/
def run_script (pyExe script_path : String) (undo : Bool) : Except String LaunchSpec :=
  let ext := strLower (extOf script_path)
  if ext = ".ps1" then
    .ok ⟨if undo then ["powershell", "-ExecutionPolicy", "Bypass", "-File", script_path, "-Undo"]
         else ["powershell", "-ExecutionPolicy", "Bypass", "-File", script_path], false⟩
  else if ext = ".py" then
    .ok ⟨if undo then [pyExe, script_path, "--undo"] else [pyExe, script_path], false⟩
  else if ext = ".bat" ∨ ext = ".cmd" then
    .ok ⟨if undo then [script_path, "undo"] else [script_path], true⟩
  else if ext = ".exe" then
    if undo then .error "Undo operation not supported for EXE files"
    else .ok ⟨[script_path], false⟩
  else
    .error ("Unsupported script type: " ++ ext)

/-- One `ShellExecuteW(None, "runas", file, params, None, 1)` elevation
request as issued by `run_script_as_admin`. -/
structure ElevCall where
  operation : String
  file : String
  params : Option String
deriving DecidableEq, Repr

/-- Body of the `try` block of `run_script_as_admin` (everything the
function's own `except Exception` handler guards).  `elevOutcome` models
the `ShellExecuteW` call's fate (`.ok ()` — accepted, `.error e` — the call
raised).  Returns the elevation requests actually issued together with the
block's outcome: `.ok b` — the block ran to a `return b`; `.error e` — it
raised with message `e`. -/
def run_script_as_admin_body (pyExe script_path : String) (undo : Bool)
    (elevOutcome : Except String Unit) : List ElevCall × Except String Bool :=
  let ext := strLower (extOf script_path)
  let after : Except String Unit → Except String Bool := fun r =>
    match r with
    | .ok _ => .ok true
    | .error e => .error e
  if ext = ".ps1" then
    let args := if undo then "-ExecutionPolicy Bypass -File \"" ++ script_path ++ "\" -Undo"
                else "-ExecutionPolicy Bypass -File \"" ++ script_path ++ "\""
    ([⟨"runas", "powershell", some args⟩], after elevOutcome)
  else if ext = ".py" then
    let args := if undo then "\"" ++ script_path ++ "\" --undo"
                else "\"" ++ script_path ++ "\""
    ([⟨"runas", pyExe, some args⟩], after elevOutcome)
  else if ext = ".bat" ∨ ext = ".cmd" then
    let args := if undo then some "undo" else none
    ([⟨"runas", script_path, args⟩], after elevOutcome)
  else if ext = ".exe" then
    if undo then ([], .ok false)
    else ([⟨"runas", script_path, none⟩], after elevOutcome)
  else
    ([], .error ("Unsupported script type: " ++ ext))

/-- `run_script_as_admin` of `script_runner.py` as its caller sees it:
the `try` body's errors are caught by the function's own handler, which
returns `False`.  An outer `.error` would mean an exception escaping to
the caller; the splitext prelude outside the `try` is pure, so the only
sources of errors are inside the body. -/
def run_script_as_admin (pyExe script_path : String) (undo : Bool)
    (elevOutcome : Except String Unit) : Except String (List ElevCall × Bool) :=
  let r := run_script_as_admin_body pyExe script_path undo elevOutcome
  match r.2 with
  | .ok b => .ok (r.1, b)
  | .error _ => .ok (r.1, false)

example : run_script "python" "a.py" false = .ok ⟨["python", "a.py"], false⟩ := by decide

example : run_script "python" "a.py" true = .ok ⟨["python", "a.py", "--undo"], false⟩ := by decide

example : run_script "python" "a.txt" false = .error "Unsupported script type: .txt" := by decide

example : run_script "python" "a.exe" true = .error "Undo operation not supported for EXE files" := by decide

example : run_script_as_admin "python" "a.exe" true (.ok ()) = .ok ([], false) := by decide

example : run_script_as_admin "python" "a.txt" true (.ok ()) = .ok ([], false) := by decide

example :
    run_script_as_admin "python" "a.bat" true (.ok ()) =
      .ok ([⟨"runas", "a.bat", some "undo"⟩], true) := by decide

/-! Helper lemmas. -/

lemma string_mk_ne_empty {l : List Char} (hl : l ≠ []) : String.mk l ≠ "" := by
  intro hc
  exact hl (congrArg String.data hc)

lemma splitextBase_ne_nil_of_snd {b : List Char} (h : (splitextBase b).2 ≠ []) : b ≠ [] := by
  intro hb
  subst hb
  exact h rfl

lemma splitextBase_fst_ne_nil {b : List Char} (h : (splitextBase b).2 ≠ []) :
    (splitextBase b).1 ≠ [] := by
  cases hl : lastIdx '.' b with
  | none =>
    exfalso
    apply h
    simp [splitextBase, hl]
  | some d =>
    by_cases ha : (b.take d).any (fun c => c != '.')
    · simp only [splitextBase, hl, if_pos ha]
      intro hnil
      rw [hnil] at ha
      simp at ha
    · exfalso
      apply h
      simp only [splitextBase, hl]
      rw [if_neg ha]

lemma extOfList_ne_nil {path : String} (h : strLower (extOf path) = ".exe") :
    extOfList path.data ≠ [] := by
  intro h0
  have h2 : strLower (extOf path) = "" := by
    unfold extOf
    rw [h0]
    rfl
  rw [h2] at h
  exact absurd h (by decide)

lemma basename_ne_empty {path : String} (h : strLower (extOf path) = ".exe") :
    basename path ≠ "" :=
  string_mk_ne_empty (splitextBase_ne_nil_of_snd (extOfList_ne_nil h))

lemma splitextRoot_basename_ne_empty {path : String} (h : strLower (extOf path) = ".exe") :
    splitextRoot (basename path) ≠ "" :=
  string_mk_ne_empty (splitextBase_fst_ne_nil (extOfList_ne_nil h))

/-! Claim theorems. -/

/-- C1: for every path with a non-`.exe` extension, an I/O error in the
read is caught: the parser returns the record whose `description` carries
the error text (prefixed `Error reading metadata: `), every other field
its default (`name` = base name, `undoable` = `"No"`, empty undo
description, developer and link); the `Except`-free result type records
that nothing is raised to the caller. -/
theorem C1_parse_io_error_defaults (path e : String) (o : ExeOracle)
    (hexe : strLower (extOf path) ≠ ".exe") :
    parse_script_metadata path (.error e) o =
      ⟨basename path, "Error reading metadata: " ++ e, "No", "", "", ""⟩ := by
  simp only [parse_script_metadata]
  rw [if_neg hexe]

/-- C1 witness. -/
theorem C1_witness :
    strLower (extOf "a.py") ≠ ".exe" ∧
      parse_script_metadata "a.py" (.error "denied") .lookupError =
        ⟨"a.py", "Error reading metadata: denied", "No", "", "", ""⟩ :=
  ⟨by decide, C1_parse_io_error_defaults "a.py" "denied" .lookupError (by decide)⟩

/-- C6: `run_script` builds the argument vector purely from the extension
and the undo flag: `.py` runs as `[interpreter, path]` plus `--undo` only
in undo mode; `.ps1` as the PowerShell bypass invocation plus `-Undo` only
in undo mode; `.bat`/`.cmd` as the script path through the command shell
plus the literal `undo` only in undo mode. -/
theorem C6_run_script_vectors (pyExe path : String) :
    (strLower (extOf path) = ".py" →
      run_script pyExe path false = .ok ⟨[pyExe, path], false⟩ ∧
      run_script pyExe path true = .ok ⟨[pyExe, path, "--undo"], false⟩) ∧
    (strLower (extOf path) = ".ps1" →
      run_script pyExe path false =
        .ok ⟨["powershell", "-ExecutionPolicy", "Bypass", "-File", path], false⟩ ∧
      run_script pyExe path true =
        .ok ⟨["powershell", "-ExecutionPolicy", "Bypass", "-File", path, "-Undo"], false⟩) ∧
    (strLower (extOf path) = ".bat" ∨ strLower (extOf path) = ".cmd" →
      run_script pyExe path false = .ok ⟨[path], true⟩ ∧
      run_script pyExe path true = .ok ⟨[path, "undo"], true⟩) := by
  refine ⟨fun h => ?_, fun h => ?_, fun h => ?_⟩
  · simp [run_script, h]
  · simp [run_script, h]
  · rcases h with h | h <;> simp [run_script, h]

/-- C6 witness. -/
theorem C6_witness :
    run_script "python" "a.py" true = .ok ⟨["python", "a.py", "--undo"], false⟩ ∧
    run_script "python" "a.ps1" false =
      .ok ⟨["powershell", "-ExecutionPolicy", "Bypass", "-File", "a.ps1"], false⟩ ∧
    run_script "python" "a.bat" true = .ok ⟨["a.bat", "undo"], true⟩ :=
  ⟨((C6_run_script_vectors "python" "a.py").1 (by decide)).2,
   ((C6_run_script_vectors "python" "a.ps1").2.1 (by decide)).1,
   ((C6_run_script_vectors "python" "a.bat").2.2 (Or.inl (by decide))).2⟩

/-- C7: `run_script` fails synchronously, creating no process (the
`.error` constructor carries no `LaunchSpec`), exactly on an extension
outside the five supported ones (an unsupported-script-type error) and on
`.exe` in undo mode (a not-supported error). -/
theorem C7_run_script_rejects (pyExe path : String) (undo : Bool) :
    (strLower (extOf path) ∉ ([".ps1", ".py", ".bat", ".cmd", ".exe"] : List String) →
      run_script pyExe path undo =
        .error ("Unsupported script type: " ++ strLower (extOf path))) ∧
    (strLower (extOf path) = ".exe" →
      run_script pyExe path true = .error "Undo operation not supported for EXE files") := by
  constructor
  · intro h
    simp only [List.mem_cons, List.not_mem_nil, or_false, not_or] at h
    obtain ⟨h1, h2, h3, h4, h5⟩ := h
    simp [run_script, h1, h2, h3, h4, h5]
  · intro h
    simp [run_script, h]

/-- C7 witness. -/
theorem C7_witness :
    (strLower (extOf "a.txt") ∉ ([".ps1", ".py", ".bat", ".cmd", ".exe"] : List String) ∧
      run_script "python" "a.txt" false =
        .error ("Unsupported script type: " ++ strLower (extOf "a.txt"))) ∧
    (strLower (extOf "a.exe") = ".exe" ∧
      run_script "python" "a.exe" true = .error "Undo operation not supported for EXE files") :=
  ⟨⟨by decide, (C7_run_script_rejects "python" "a.txt" false).1 (by decide)⟩,
   ⟨by decide, (C7_run_script_rejects "python" "a.exe" true).2 (by decide)⟩⟩

/-- C8 counterexample: the elevated launcher does NOT reject `.exe` + undo
identically to `run_script`: its `try`-body raises no undo-unsupported
error (it evaluates to a plain `return False`), while `run_script` raises
`ValueError` to its caller for the same input. -/
theorem C8_counterexample :
    ¬ ((run_script_as_admin_body "python" "C:\\x.exe" true (.ok ())).2 =
        .error "Undo operation not supported for EXE files") ∧
    run_script "python" "C:\\x.exe" true =
      .error "Undo operation not supported for EXE files" ∧
    run_script_as_admin "python" "C:\\x.exe" true (.ok ()) = .ok ([], false) := by
  refine ⟨by decide, by decide, by decide⟩

/-- C8 amended: for every `.exe` path in undo mode the elevated launcher
rejects the request synchronously before any elevation call: its body
issues no `ShellExecuteW` request and returns `False` directly without
raising, and the function returns `False` to the caller — the same
caller-observable outcome as the unsupported-type case, though (unlike
`run_script`) no error is raised. -/
theorem C8_exe_undo_admin_rejects (pyExe path : String) (elev : Except String Unit)
    (h : strLower (extOf path) = ".exe") :
    run_script_as_admin_body pyExe path true elev = ([], .ok false) ∧
    run_script_as_admin pyExe path true elev = .ok ([], false) := by
  constructor
  · simp [run_script_as_admin_body, h]
  · simp [run_script_as_admin, run_script_as_admin_body, h]

/-- C8 witness. -/
theorem C8_witness :
    strLower (extOf "b.exe") = ".exe" ∧
      run_script_as_admin "py" "b.exe" true (.ok ()) = .ok ([], false) :=
  ⟨by decide, (C8_exe_undo_admin_rejects "py" "b.exe" (.ok ()) (by decide)).2⟩

/-- C9: for every `.exe` path the executable metadata fallback (to which
the parser routes every `.exe` path regardless of the read outcome)
reports `undoable = "No"`, empty undo description, developer and link, and
a non-empty name, whatever the win32 version-resource lookup does. -/
theorem C9_exe_fallback (path : String) (o : ExeOracle)
    (h : strLower (extOf path) = ".exe") :
    (∀ fileRead, parse_script_metadata path fileRead o = get_exe_metadata path o) ∧
    (get_exe_metadata path o).undoable = "No" ∧
    (get_exe_metadata path o).undo_desc = "" ∧
    (get_exe_metadata path o).developer = "" ∧
    (get_exe_metadata path o).link = "" ∧
    (get_exe_metadata path o).friendly_name ≠ "" := by
  refine ⟨fun fileRead => ?_, ?_, ?_, ?_, ?_, ?_⟩
  · simp only [parse_script_metadata]
    rw [if_pos h]
  · cases o <;> rfl
  · cases o <;> rfl
  · cases o <;> rfl
  · cases o <;> rfl
  · cases o with
    | importError => exact splitextRoot_basename_ne_empty h
    | lookupError => exact basename_ne_empty h
    | midError descInfo => exact basename_ne_empty h
    | outerError e => exact basename_ne_empty h
    | ok descInfo nameInfo =>
      by_cases hn : nameInfo ≠ ""
      · simp [get_exe_metadata, hn]
      · simp only [get_exe_metadata, if_neg hn]
        exact basename_ne_empty h

/-- C9 witness. -/
theorem C9_witness :
    strLower (extOf "C:\\t\\setup.exe") = ".exe" ∧
      (get_exe_metadata "C:\\t\\setup.exe" .importError).undoable = "No" ∧
      (get_exe_metadata "C:\\t\\setup.exe" .importError).friendly_name ≠ "" :=
  ⟨by decide,
   (C9_exe_fallback "C:\\t\\setup.exe" .importError (by decide)).2.1,
   (C9_exe_fallback "C:\\t\\setup.exe" .importError (by decide)).2.2.2.2.2⟩

/-- C10: `run_script_as_admin` is total: it always returns `.ok` (no
exception reaches the caller — the body's errors are all absorbed by the
function's own handler), and every failure path yields the value `False`:
an unsupported extension (whose internally raised error the handler
catches), `.exe` with undo mode, and a failing elevation call. -/
theorem C10_admin_total (pyExe path : String) (undo : Bool)
    (elev : Except String Unit) :
    (∃ out, run_script_as_admin pyExe path undo elev = .ok out) ∧
    (strLower (extOf path) ∉ ([".ps1", ".py", ".bat", ".cmd", ".exe"] : List String) →
      run_script_as_admin pyExe path undo elev = .ok ([], false)) ∧
    (strLower (extOf path) = ".exe" → undo = true →
      run_script_as_admin pyExe path undo elev = .ok ([], false)) ∧
    (∀ e, elev = .error e →
      run_script_as_admin pyExe path undo elev =
        .ok ((run_script_as_admin_body pyExe path undo elev).1, false)) := by
  refine ⟨?_, ?_, ?_, ?_⟩
  · simp only [run_script_as_admin]
    cases hb : (run_script_as_admin_body pyExe path undo elev).2 with
    | ok b => exact ⟨_, rfl⟩
    | error e => exact ⟨_, rfl⟩
  · intro h
    simp only [List.mem_cons, List.not_mem_nil, or_false, not_or] at h
    obtain ⟨h1, h2, h3, h4, h5⟩ := h
    simp [run_script_as_admin, run_script_as_admin_body, h1, h2, h3, h4, h5]
  · intro hexe hundo
    subst hundo
    simp [run_script_as_admin, run_script_as_admin_body, hexe]
  · intro e he
    subst he
    by_cases h1 : strLower (extOf path) = ".ps1"
    · simp [run_script_as_admin, run_script_as_admin_body, h1]
    · by_cases h2 : strLower (extOf path) = ".py"
      · simp [run_script_as_admin, run_script_as_admin_body, h1, h2]
      · by_cases h3 : strLower (extOf path) = ".bat" ∨ strLower (extOf path) = ".cmd"
        · simp [run_script_as_admin, run_script_as_admin_body, h1, h2, h3]
        · by_cases h4 : strLower (extOf path) = ".exe"
          · cases hu : undo
            · simp [run_script_as_admin, run_script_as_admin_body, h1, h2, h3, h4]
            · simp [run_script_as_admin, run_script_as_admin_body, h1, h2, h3, h4]
          · simp [run_script_as_admin, run_script_as_admin_body, h1, h2, h3, h4]

/-- C2: a readable non-`.exe` file whose first 2000 characters contain none
of the six recognized metadata markers parses to the all-defaults record:
name = base name, empty description, undo description, developer and link,
and `undoable = "No"` (the source's encoding of false); the result type is
exception-free. -/
theorem C2_no_markers_defaults (path file : String) (o : ExeOracle)
    (hexe : strLower (extOf path) ≠ ".exe")
    (hnm : noMarkers
      (if strLower (extOf path) = ".bat" ∨ strLower (extOf path) = ".cmd"
       then "::".data else "#".data)
      (file.data.take 2000)) :
    parse_script_metadata path (.ok file) o = ⟨basename path, "", "No", "", "", ""⟩ := by
  obtain ⟨h1, h2, h3, h4, h5, h6⟩ := hnm
  simp only [parse_script_metadata]
  rw [if_neg hexe]
  simp only [getField, h1, h2, h3, h4, h5, h6]

/-- C2 witness. -/
theorem C2_witness :
    strLower (extOf "a.py") ≠ ".exe" ∧
    noMarkers
      (if strLower (extOf "a.py") = ".bat" ∨ strLower (extOf "a.py") = ".cmd"
       then "::".data else "#".data)
      (("print(1)\n" : String).data.take 2000) ∧
    parse_script_metadata "a.py" (.ok "print(1)\n") .lookupError =
      ⟨"a.py", "", "No", "", "", ""⟩ :=
  ⟨by decide, by decide,
   C2_no_markers_defaults "a.py" "print(1)\n" .lookupError (by decide) (by decide)⟩

/-- C3: comment-marker selection depends only on the extension class (and
the default name only on the base name): two non-`.exe` paths with the same
base name and the same batch-family membership parse any file identically;
concretely, `:: NAME: Foo` is recognized in `.bat`/`.cmd` files while
`# NAME: Foo` is not, and in `.py` (or any other non-batch) files `#` is
recognized while `::` is not, the name falling back to the base name. -/
theorem C3_marker_by_extension :
    (∀ (p q f : String) (o₁ o₂ : ExeOracle),
      strLower (extOf p) ≠ ".exe" → strLower (extOf q) ≠ ".exe" →
      basename p = basename q →
      ((strLower (extOf p) = ".bat" ∨ strLower (extOf p) = ".cmd") ↔
        (strLower (extOf q) = ".bat" ∨ strLower (extOf q) = ".cmd")) →
      parse_script_metadata p (.ok f) o₁ = parse_script_metadata q (.ok f) o₂) ∧
    (parse_script_metadata "foo.bat" (.ok ":: NAME: Foo\n") .lookupError).friendly_name
      = "Foo" ∧
    (parse_script_metadata "foo.bat" (.ok "# NAME: Foo\n") .lookupError).friendly_name
      = "foo.bat" ∧
    (parse_script_metadata "foo.cmd" (.ok ":: NAME: Foo\n") .lookupError).friendly_name
      = "Foo" ∧
    (parse_script_metadata "foo.py" (.ok "# NAME: Foo\n") .lookupError).friendly_name
      = "Foo" ∧
    (parse_script_metadata "foo.py" (.ok ":: NAME: Foo\n") .lookupError).friendly_name
      = "foo.py" ∧
    (parse_script_metadata "foo.xyz" (.ok "# NAME: Foo\n") .lookupError).friendly_name
      = "Foo" := by
  refine ⟨?_, by decide, by decide, by decide, by decide, by decide, by decide⟩
  intro p q f o₁ o₂ he1 he2 hbase hiff
  simp only [parse_script_metadata]
  rw [if_neg he1, if_neg he2]
  by_cases hb : strLower (extOf p) = ".bat" ∨ strLower (extOf p) = ".cmd"
  · rw [if_pos hb, if_pos (hiff.mp hb), hbase]
  · rw [if_neg hb, if_neg (fun hh => hb (hiff.mpr hh)), hbase]

/-- C3 witness. -/
theorem C3_witness :
    strLower (extOf "d/a.py") ≠ ".exe" ∧ strLower (extOf "e\\a.py") ≠ ".exe" ∧
    basename "d/a.py" = basename "e\\a.py" ∧
    parse_script_metadata "d/a.py" (.ok "# NAME: X\n") .lookupError =
      parse_script_metadata "e\\a.py" (.ok "# NAME: X\n") .importError :=
  ⟨by decide, by decide, by decide,
   C3_marker_by_extension.1 "d/a.py" "e\\a.py" "# NAME: X\n" .lookupError .importError
     (by decide) (by decide) (by decide) (by decide)⟩

set_option maxRecDepth 40000 in
/-- C5: the parser's result depends only on the first 2000 characters of
the file (truncating the file to 2000 characters changes nothing), a
`NAME:` marker around character 100 is detected, and one placed after
character 2000 is not, the name falling back to the base name. -/
theorem C5_scan_window :
    (∀ (path f : String) (o : ExeOracle),
      parse_script_metadata path (.ok f) o =
        parse_script_metadata path (.ok (String.mk (f.data.take 2000))) o) ∧
    (parse_script_metadata "s.py"
        (.ok (String.mk (List.replicate 100 'a' ++ "\n# NAME: Foo\n".data)))
        .lookupError).friendly_name = "Foo" ∧
    (parse_script_metadata "s.py"
        (.ok (String.mk (List.replicate 2000 'a' ++ "\n# NAME: Foo\n".data)))
        .lookupError).friendly_name = "s.py" := by
  refine ⟨?_, by decide, by decide⟩
  intro path f o
  simp only [parse_script_metadata]
  by_cases hexe : strLower (extOf path) = ".exe"
  · rw [if_pos hexe, if_pos hexe]
  · rw [if_neg hexe, if_neg hexe]
    have ht : (f.data.take 2000).take 2000 = f.data.take 2000 :=
      List.take_of_length_le (by simp [List.length_take])
    rw [ht]

/-- C5 witness. -/
theorem C5_witness :
    parse_script_metadata "s.py" (.ok "# NAME: Foo\n") .lookupError =
      parse_script_metadata "s.py"
        (.ok (String.mk (("# NAME: Foo\n" : String).data.take 2000))) .lookupError :=
  C5_scan_window.1 "s.py" "# NAME: Foo\n" .lookupError

/-! Helper lemmas for the UNDOABLE-normalization claim. -/

lemma dropWhile_append_cons {p : Char → Bool} {a : Char} (h : p a = false)
    (v t : List Char) :
    List.dropWhile p (v ++ a :: t) = List.dropWhile p v ++ a :: t := by
  induction v with
  | nil => simp [List.dropWhile_cons, h]
  | cons x xs ih =>
    by_cases hx : p x
    · simp [List.dropWhile_cons, hx, ih]
    · simp [List.dropWhile_cons, hx]

lemma takeWhile_append_all (p : Char → Bool) :
    ∀ (w t : List Char), (∀ c ∈ w, p c = true) →
      List.takeWhile p (w ++ t) = w ++ List.takeWhile p t
  | [], _, _ => by simp
  | x :: xs, t, hw => by
    have hx : p x = true := hw x (List.mem_cons_self x xs)
    have ih := takeWhile_append_all p xs t (fun c hc => hw c (List.mem_cons_of_mem x hc))
    simp [List.takeWhile_cons, hx, ih]

lemma dropWhile_append_all (p : Char → Bool) :
    ∀ (w t : List Char), (∀ c ∈ w, p c = true) →
      List.dropWhile p (w ++ t) = List.dropWhile p t
  | [], _, _ => by simp
  | x :: xs, t, hw => by
    have hx : p x = true := hw x (List.mem_cons_self x xs)
    have ih := dropWhile_append_all p xs t (fun c hc => hw c (List.mem_cons_of_mem x hc))
    simp [List.dropWhile_cons, hx, ih]

lemma dropWhile_dropWhile_imp (p q : Char → Bool)
    (himp : ∀ c, p c = true → q c = true) :
    ∀ v : List Char, List.dropWhile q (List.dropWhile p v) = List.dropWhile q v
  | [] => by simp
  | x :: xs => by
    by_cases hx : p x = true
    · have hq := himp x hx
      simp [List.dropWhile_cons, hx, hq, dropWhile_dropWhile_imp p q himp xs]
    · simp [List.dropWhile_cons, hx]

lemma isTabSpace_isPyWs {c : Char} (h : isTabSpace c = true) : isPyWs c = true := by
  simp only [isTabSpace, Bool.or_eq_true, decide_eq_true_eq] at h
  rcases h with h | h <;> subst h <;> rfl

lemma stripList_dropWhile_tabSpace (v : List Char) :
    stripList (List.dropWhile isTabSpace v) = stripList v := by
  unfold stripList
  rw [dropWhile_dropWhile_imp isTabSpace isPyWs (fun _ h => isTabSpace_isPyWs h) v]

lemma no_crlf_of_dropWhile {v : List Char} (hv : ∀ c ∈ v, isCRLF c = false) :
    ∀ c ∈ List.dropWhile isTabSpace v, isCRLF c = false :=
  fun c hc => hv c (List.Sublist.mem hc (List.dropWhile_sublist _))

lemma searchField_head_some {m kw : List Char} {c : Char} {cs g : List Char}
    (h : matchFieldAt m kw (c :: cs) = some g) :
    searchField m kw (c :: cs) = some g := by
  simp [searchField, h]

/-- The `undoable` field of the parser on a readable non-`.exe` file, in
terms of the UNDOABLE field regex search. -/
lemma parse_undoable_eq (path file : String) (o : ExeOracle)
    (hexe : strLower (extOf path) ≠ ".exe") :
    (parse_script_metadata path (.ok file) o).undoable =
      (match searchField
          (if strLower (extOf path) = ".bat" ∨ strLower (extOf path) = ".cmd"
           then "::".data else "#".data) kwUNDOABLE (file.data.take 2000) with
       | some g =>
         if lowerList (stripList g) ∈ ["yes".data, "true".data, "1".data]
         then "Yes" else "No"
       | none => "No") := by
  simp only [parse_script_metadata]
  rw [if_neg hexe]

/-- C4: `parse_script_metadata` normalizes a declared UNDOABLE value
case-insensitively after trimming — a member of yes/true/1 in any letter
case yields `"Yes"`, anything else and an absent marker yield `"No"` —
shown end-to-end for an arbitrary declared value, for absence, and on the
spec's concrete examples. -/
theorem C4_undoable_normalization :
    (∀ (v : List Char) (o : ExeOracle),
      (∀ c ∈ v, isCRLF c = false) → v.length ≤ 1900 →
      (parse_script_metadata "s.py"
          (.ok (String.mk ("# UNDOABLE: ".data ++ v ++ ['\n']))) o).undoable =
        (if lowerList (stripList v) ∈ ["yes".data, "true".data, "1".data]
         then "Yes" else "No")) ∧
    (∀ (path file : String) (o : ExeOracle),
      strLower (extOf path) ≠ ".exe" →
      searchField
        (if strLower (extOf path) = ".bat" ∨ strLower (extOf path) = ".cmd"
         then "::".data else "#".data) kwUNDOABLE (file.data.take 2000) = none →
      (parse_script_metadata path (.ok file) o).undoable = "No") ∧
    (parse_script_metadata "s.py" (.ok "# UNDOABLE: Yes\n") .lookupError).undoable = "Yes" ∧
    (parse_script_metadata "s.py" (.ok "# UNDOABLE: yes\n") .lookupError).undoable = "Yes" ∧
    (parse_script_metadata "s.py" (.ok "# UNDOABLE: TRUE\n") .lookupError).undoable = "Yes" ∧
    (parse_script_metadata "s.py" (.ok "# UNDOABLE: 1\n") .lookupError).undoable = "Yes" ∧
    (parse_script_metadata "s.py" (.ok "# UNDOABLE: No\n") .lookupError).undoable = "No" ∧
    (parse_script_metadata "s.py" (.ok "# UNDOABLE: \n") .lookupError).undoable = "No" ∧
    (parse_script_metadata "s.py" (.ok "# UNDOABLE: maybe\n") .lookupError).undoable = "No" ∧
    (parse_script_metadata "s.py" (.ok "# DESCRIPTION: x\n") .lookupError).undoable = "No" := by
  refine ⟨?_, ?_, by decide, by decide, by decide, by decide, by decide, by decide,
    by decide, by decide⟩
  · intro v o hv hlen
    have hw : ∀ c ∈ List.dropWhile isTabSpace v, isCRLF c = false := no_crlf_of_dropWhile hv
    have hw' : ∀ c ∈ List.dropWhile isTabSpace v, (!isCRLF c) = true := by
      intro c hc
      rw [hw c hc]
      rfl
    have hlen2 : ("# UNDOABLE: ".data ++ v ++ ['\n']).length ≤ 2000 := by
      simp only [List.length_append, List.length_cons, List.length_nil]
      have hh : ("# UNDOABLE: ".data).length = 12 := rfl
      omega
    have hmatch : matchFieldAt "#".data kwUNDOABLE ("# UNDOABLE: ".data ++ v ++ ['\n'])
        = some (List.dropWhile isTabSpace v) := by
      have hstart : matchFieldAt "#".data kwUNDOABLE ("# UNDOABLE: ".data ++ v ++ ['\n']) =
          (match List.dropWhile (fun c => !isCRLF c)
              (List.dropWhile isTabSpace (v ++ ['\n'])) with
           | [] => none
           | _ :: _ => some (List.takeWhile (fun c => !isCRLF c)
               (List.dropWhile isTabSpace (v ++ ['\n'])))) := rfl
      rw [hstart]
      have h5 : List.dropWhile isTabSpace (v ++ ['\n'])
          = List.dropWhile isTabSpace v ++ ['\n'] :=
        dropWhile_append_cons rfl v []
      rw [h5, dropWhile_append_all _ _ ['\n'] hw', takeWhile_append_all _ _ ['\n'] hw']
      have e1 : List.dropWhile (fun c => !isCRLF c) ['\n'] = ['\n'] := rfl
      have e2 : List.takeWhile (fun c => !isCRLF c) ['\n'] = ([] : List Char) := rfl
      rw [e1, e2]
      simp
    have hsearch : searchField "#".data kwUNDOABLE ("# UNDOABLE: ".data ++ v ++ ['\n'])
        = some (List.dropWhile isTabSpace v) := by
      have hcons : ("# UNDOABLE: ".data ++ v ++ ['\n'] : List Char) =
          '#' :: (" UNDOABLE: ".data ++ v ++ ['\n']) := rfl
      rw [hcons] at hmatch
      rw [hcons]
      exact searchField_head_some hmatch
    rw [parse_undoable_eq "s.py" _ o (by decide)]
    rw [if_neg (by decide : ¬ (strLower (extOf "s.py") = ".bat" ∨ strLower (extOf "s.py") = ".cmd"))]
    have hdata : (String.mk ("# UNDOABLE: ".data ++ v ++ ['\n'])).data
        = "# UNDOABLE: ".data ++ v ++ ['\n'] := rfl
    rw [hdata, List.take_of_length_le hlen2, hsearch]
    show (if lowerList (stripList (List.dropWhile isTabSpace v))
        ∈ ["yes".data, "true".data, "1".data] then ("Yes" : String) else "No") = _
    rw [stripList_dropWhile_tabSpace]
  · intro path file o hexe hnone
    rw [parse_undoable_eq path file o hexe, hnone]

/-- C4 witness. -/
theorem C4_witness :
    (parse_script_metadata "s.py"
        (.ok (String.mk ("# UNDOABLE: ".data ++ "TRUE".data ++ ['\n'])))
        .lookupError).undoable =
      (if lowerList (stripList "TRUE".data) ∈ ["yes".data, "true".data, "1".data]
       then "Yes" else "No") :=
  C4_undoable_normalization.1 "TRUE".data .lookupError (by decide) (by decide)

/-- C10 witness. -/
theorem C10_witness :
    (∃ out, run_script_as_admin "python" "a.txt" false (.ok ()) = .ok out) ∧
      run_script_as_admin "python" "a.txt" false (.ok ()) = .ok ([], false) :=
  ⟨(C10_admin_total "python" "a.txt" false (.ok ())).1,
   (C10_admin_total "python" "a.txt" false (.ok ())).2.1 (by decide)⟩

end WinPick
